import Mathlib

/-!
Verification of the symbolic-algebra engine in `src/objects.py`.

The embedding below transliterates the Python source:

* Python numbers (`int` / `float`) are modelled by `PyNum`: an exact fraction
  `num / den` together with an `isFloat` kind flag.  All numeric values that
  the program manipulates on the claims' inputs are exact in double precision,
  so the exact-fraction model agrees with Python's arithmetic there.  The
  `isFloat` flag records Python's `int` vs `float` distinction, which is
  observable through `str` (Python prints `3` for the int and `3.0` for the
  float).  Fractions are kept unnormalised; the denominator is nonzero for
  every value the program constructs (ints have `den = 1`, parsed literals
  have a power of ten, and true division guards a zero numerator), and
  Python's numeric `==` is cross-multiplication equality.
* Exceptions are modelled by `Option` (for `simplify`, where the only failure
  is `ZeroDivisionError` in constant folding, and for `__eq__`, where the only
  failure is `AttributeError`) and by `Except ParseErr` for the parser, whose
  distinct Python exceptions (`IndexError`, `KeyError`, `ValueError`) are kept
  apart.
* The four operator subclasses `Add`, `Sub`, `Mul`, `Div` of `BinOp` are
  modelled by the tag `Op` carried by the `Expr.binOp` constructor; this is
  exactly the string tag `self.Op` that the Python code dispatches on.
-/

namespace Symboa

/-- A Python numeric value: the exact fraction `num / den`, plus the
`int`-vs-`float` kind.  Ints always carry `den = 1`. -/
structure PyNum where
  num : Int
  den : Int
  isFloat : Bool
deriving DecidableEq, Repr

/-- The operator tag stored in `BinOp.Op` (the strings `"Add"`, `"Sub"`,
`"Mul"`, `"Div"` in the source). -/
inductive Op where
  | add
  | sub
  | mul
  | div
deriving DecidableEq, Repr

/-- The expression tree: `Var`, `Num`, and the four `BinOp` subclasses
(identified by their `Op` tag). -/
inductive Expr where
  | var (name : String)
  | num (n : PyNum)
  | binOp (op : Op) (left right : Expr)
deriving DecidableEq, Repr

/-- The `Num(0)` literal (a Python `int`). -/
def zeroN : PyNum := ⟨0, 1, false⟩

/-- The `Num(1)` literal (a Python `int`). -/
def oneN : PyNum := ⟨1, 1, false⟩

/-- Python numeric `==` on exact fractions: cross-multiplication.  This is
`Num.__eq__`'s comparison `self.n == other.n` (`3 == 3.0` is true in Python,
so the kind flag is ignored). -/
def pyNumEq (a b : PyNum) : Bool := a.num * b.den == b.num * a.den

/-- `BinOp.eval_Op` applied to two numeric values (the constant-folding use
`self.eval_Op(ls.n, rs.n)`).  Python raises `ZeroDivisionError` when the
right operand of `/` equals zero, modelled as `none`; `int / int` is true
division and always yields a `float`. -/
def pyEvalNum : Op → PyNum → PyNum → Option PyNum
  | .add, a, b => some ⟨a.num * b.den + b.num * a.den, a.den * b.den, a.isFloat || b.isFloat⟩
  | .sub, a, b => some ⟨a.num * b.den - b.num * a.den, a.den * b.den, a.isFloat || b.isFloat⟩
  | .mul, a, b => some ⟨a.num * b.num, a.den * b.den, a.isFloat || b.isFloat⟩
  | .div, a, b => if b.num = 0 then none else some ⟨a.num * b.den, a.den * b.num, true⟩

/-- `Expr.precedence`: the base class returns 10, `Add`/`Sub` return 1,
`Mul`/`Div` return 2. -/
def Expr.precedence : Expr → Nat
  | .var _ => 10
  | .num _ => 10
  | .binOp .add _ _ => 1
  | .binOp .sub _ _ => 1
  | .binOp .mul _ _ => 2
  | .binOp .div _ _ => 2

/-- The operator symbol used by `BinOp.__str__`'s `op_syms` table. -/
def opSym : Op → String
  | .add => "+"
  | .sub => "-"
  | .mul => "*"
  | .div => "/"

/-- `deriv`: symbolic differentiation, dispatched per class exactly as in the
source.  `Var.deriv` compares the variable name; `Num.deriv` is `Num(0)`;
`Add`/`Sub` use linearity; `Mul` the product rule
`left * d(right) + right * d(left)`; `Div` the quotient rule
`(right * d(left) - left * d(right)) / (right * right)`.  The `+ - * /`
operator overloads on `Expr` construct fresh `Add`/`Sub`/`Mul`/`Div` nodes,
i.e. `Expr.binOp` with the matching tag. -/
def Expr.deriv : Expr → String → Expr
  | .var name, v => if name = v then .num oneN else .num zeroN
  | .num _, _ => .num zeroN
  | .binOp .add l r, v => .binOp .add (l.deriv v) (r.deriv v)
  | .binOp .sub l r, v => .binOp .sub (l.deriv v) (r.deriv v)
  | .binOp .mul l r, v => .binOp .add (.binOp .mul l (r.deriv v)) (.binOp .mul r (l.deriv v))
  | .binOp .div l r, v =>
      .binOp .div
        (.binOp .sub (.binOp .mul r (l.deriv v)) (.binOp .mul l (r.deriv v)))
        (.binOp .mul r r)

/-- `Add.simplify`'s case analysis on the two already-simplified children
(`ls`, `rs`).  The final case `self.eval_Op(ls, rs)` applies `+` to two
`Expr` values, which constructs a fresh `Add` node over them. -/
def simplifyAdd (ls rs : Expr) : Option Expr :=
  match ls with
  | .num a =>
    match rs with
    | .num b => (pyEvalNum .add a b).map .num
    | _ => if pyNumEq a zeroN then some rs else some (.binOp .add ls rs)
  | _ =>
    match rs with
    | .num b => if pyNumEq b zeroN then some ls else some (.binOp .add ls rs)
    | _ => some (.binOp .add ls rs)

/-- `Sub.simplify`'s case analysis: constant folding, then `x - 0 → x` (only
when the left child is not a `Num`, since both-`Num` was folded first), and
otherwise a fresh `Sub` node. -/
def simplifySub (ls rs : Expr) : Option Expr :=
  match ls with
  | .num a =>
    match rs with
    | .num b => (pyEvalNum .sub a b).map .num
    | _ => some (.binOp .sub ls rs)
  | _ =>
    match rs with
    | .num b => if pyNumEq b zeroN then some ls else some (.binOp .sub ls rs)
    | _ => some (.binOp .sub ls rs)

/-- `Mul.simplify`'s case analysis: constant folding, `0 * x → Num(0)`,
`1 * x → x`, `x * 0 → Num(0)`, `x * 1 → x`, otherwise a fresh `Mul` node. -/
def simplifyMul (ls rs : Expr) : Option Expr :=
  match ls with
  | .num a =>
    match rs with
    | .num b => (pyEvalNum .mul a b).map .num
    | _ =>
      if pyNumEq a zeroN then some (.num zeroN)
      else if pyNumEq a oneN then some rs
      else some (.binOp .mul ls rs)
  | _ =>
    match rs with
    | .num b =>
      if pyNumEq b zeroN then some (.num zeroN)
      else if pyNumEq b oneN then some ls
      else some (.binOp .mul ls rs)
    | _ => some (.binOp .mul ls rs)

/-- `Div.simplify`'s case analysis: constant folding (which raises
`ZeroDivisionError` when the right value is zero — the fold is attempted
before any identity), `0 / x → Num(0)`, `x / 1 → x`, otherwise a fresh `Div`
node. -/
def simplifyDiv (ls rs : Expr) : Option Expr :=
  match ls with
  | .num a =>
    match rs with
    | .num b => (pyEvalNum .div a b).map .num
    | _ =>
      if pyNumEq a zeroN then some (.num zeroN)
      else some (.binOp .div ls rs)
  | _ =>
    match rs with
    | .num b =>
      if pyNumEq b oneN then some ls
      else some (.binOp .div ls rs)
    | _ => some (.binOp .div ls rs)

/-- Dispatch of `simplify`'s per-operator case analysis by the node's tag. -/
def simplifyStep : Op → Expr → Expr → Option Expr
  | .add, ls, rs => simplifyAdd ls rs
  | .sub, ls, rs => simplifySub ls rs
  | .mul, ls, rs => simplifyMul ls rs
  | .div, ls, rs => simplifyDiv ls rs

/-- `simplify`: `Var` and `Num` return themselves; every `BinOp` subclass
first simplifies its left child, then its right child, then runs its
operator-specific case analysis.  An exception anywhere propagates
(`Option.bind`). -/
def Expr.simplify : Expr → Option Expr
  | .var name => some (.var name)
  | .num n => some (.num n)
  | .binOp op l r => do
      let ls ← l.simplify
      let rs ← r.simplify
      simplifyStep op ls rs

/-- Decimal representation of an `Int` (Python `str` on an int). -/
def intStr (i : Int) : String :=
  if i < 0 then "-" ++ Nat.repr i.natAbs else Nat.repr i.natAbs

/-- Fractional decimal digits of `r / d` (with `r < d`), most significant
first, by repeated multiplication by ten; stops at the first exact zero
remainder, with enough fuel for every finite decimal a Python float prints. -/
def fracDigitsAux : Nat → Nat → Nat → List Char
  | _, _, 0 => []
  | r, d, fuel + 1 =>
    if r = 0 then []
    else Char.ofNat (48 + r * 10 / d) :: fracDigitsAux (r * 10 % d) d fuel

/-- Python `str` on a `float`, modelled on the exact fraction: an integral
value prints as `<int>.0`, and a finite decimal prints its digits.  (CPython
prints the shortest decimal that round-trips through the IEEE double; on the
integral and short-decimal values this program produces the two agree.) -/
def floatStr (v : PyNum) : String :=
  let n := if v.den < 0 then -v.num else v.num
  let d := v.den.natAbs
  let sign := if n < 0 then "-" else ""
  let a := n.natAbs
  let ip := a / d
  let r := a % d
  if r = 0 then sign ++ Nat.repr ip ++ ".0"
  else sign ++ Nat.repr ip ++ "." ++ String.mk (fracDigitsAux r d 32)

/-- `Num.__str__`, i.e. Python `str(self.n)`: ints print without a decimal
point, floats with one.  Int-kind values always carry `den = 1`. -/
def pyNumStr (v : PyNum) : String :=
  if v.isFloat then floatStr v else intStr v.num

/-- Stringification: `Var.__str__` is the name, `Num.__str__` prints the
value, and `BinOp.__str__` renders infix with the symbol surrounded by
single spaces, parenthesizing the left child when its precedence is strictly
lower than the node's, and the right child when its precedence is strictly
lower or the node is `Sub`/`Div` and the precedences are equal. -/
def Expr.str : Expr → String
  | .var name => name
  | .num v => pyNumStr v
  | .binOp op l r =>
    let sym := " " ++ opSym op ++ " "
    let selfP := Expr.precedence (.binOp op l r)
    let leftStr := if l.precedence < selfP then "(" ++ l.str ++ ")" else l.str
    let rightStr :=
      if r.precedence < selfP ∨ ((op = .sub ∨ op = .div) ∧ r.precedence = selfP)
      then "(" ++ r.str ++ ")"
      else r.str
    leftStr ++ sym ++ rightStr

/-- Python's short-circuit `and` over possibly-raising boolean computations:
a raise in the first conjunct propagates; a false first conjunct skips the
second. -/
def pyAnd (a b : Option Bool) : Option Bool :=
  a.bind fun x => if x then b else some false

/-- Python's short-circuit `or`: a true first disjunct skips the second. -/
def pyOr (a b : Option Bool) : Option Bool :=
  a.bind fun x => if x then some true else b

/-- Structural equality `__eq__`, dispatched on the left operand's class.
`Var.__eq__` reads `other.name` and `Num.__eq__` reads `other.n`, so
comparing against an operand of a different class raises `AttributeError`
(`none`); likewise `BinOp.__eq__` reads `other.Op`.  `BinOp.__eq__` returns
`False` for differing tags, compares children unordered for `Add`/`Mul`
(using short-circuit `and`/`or`), and in order for `Sub`/`Div`. -/
def pyEq : Expr → Expr → Option Bool
  | .var n1, .var n2 => some (n1 == n2)
  | .var _, _ => none
  | .num a, .num b => some (pyNumEq a b)
  | .num _, _ => none
  | .binOp op1 l1 r1, .binOp op2 l2 r2 =>
    if op1 = op2 then
      if op1 = .add ∨ op1 = .mul then
        pyOr (pyAnd (pyEq l1 l2) (pyEq r1 r2)) (pyAnd (pyEq l1 r2) (pyEq r1 l2))
      else
        pyAnd (pyEq l1 l2) (pyEq r1 r2)
    else some false
  | .binOp _ _ _, _ => none

/-! ### Tokenizer

Tokens are modelled as `List Char` (Python strings).  The loop state carries
the emitted tokens, the numeric-literal accumulator `curr_char`, and
`prev_token`.  In the source, `prev_token` is unconditionally overwritten
with the raw character at the end of every non-space iteration (line 409),
making the intermediate assignments to it dead; it is therefore exactly the
previous non-space character, `none` at the start of input. -/

/-- The `special_ops` set of one-character operator/delimiter tokens. -/
def specialOps : List Char := ['+', '-', '*', '/', '(', ')']

/-- The `num_chars` set of numeric-literal characters. -/
def numChars : List Char := ['0', '1', '2', '3', '4', '5', '6', '7', '8', '9', '.']

/-- The check `prev_token in \x7bNone, "(", "+", "-", "*", "/"\x7d` guarding
the negative-literal treatment of `-`. -/
def negPrev : Option Char → Bool
  | none => true
  | some c => ['(', '+', '-', '*', '/'].contains c

/-- The tokenizer's loop state. -/
structure TokState where
  out : List (List Char)
  curr : List Char
  prev : Option Char
deriving DecidableEq, Repr

/-- The flush `if curr_char: out_tokens.append(curr_char); curr_char = ""`
performed before emitting an operator or letter token. -/
def flushCurr (st : TokState) : TokState :=
  if st.curr.isEmpty then st else { st with out := st.out ++ [st.curr], curr := [] }

/-- One iteration of the tokenizer loop: spaces are skipped (leaving the
state untouched), numeric characters accumulate into `curr`, a `-` after
`none`/`(`/an operator also accumulates (start of a negative literal), any
other special character and any letter flushes `curr` and is emitted as its
own one-character token; every non-space character becomes the new
`prev`. -/
def tokStep (st : TokState) (c : Char) : TokState :=
  if c = ' ' then st
  else
    let st' :=
      if numChars.contains c then { st with curr := st.curr ++ [c] }
      else if specialOps.contains c then
        if c = '-' ∧ negPrev st.prev then { st with curr := st.curr ++ [c] }
        else
          let st1 := flushCurr st
          { st1 with out := st1.out ++ [[c]] }
      else
        let st1 := flushCurr st
        { st1 with out := st1.out ++ [[c]] }
    { st' with prev := some c }

/-- `tokenize`: fold the loop over the input and flush the trailing numeric
literal. -/
def tokenize (s : List Char) : List (List Char) :=
  let st := s.foldl tokStep ⟨[], [], none⟩
  if st.curr.isEmpty then st.out else st.out ++ [st.curr]

/-! ### Parser -/

/-- The distinct exceptions `parse` can raise: indexing past the token list
(`IndexError`), an unknown operator symbol in the `operators` dict lookup
(`KeyError`), the explicit bracket-mismatch `ValueError`, and the
`ValueError` that `float()` raises on a malformed literal.  `outOfFuel` is
an artifact of the fueled recursion and is unreachable for the fuel `parse`
supplies. -/
inductive ParseErr where
  | indexError
  | keyError
  | valueErrorBracket
  | valueErrorFloat
  | outOfFuel
deriving DecidableEq, Repr

/-- The `operators` dict mapping an operator token to its node constructor. -/
def opOf (t : List Char) : Option Op :=
  if t = ['+'] then some .add
  else if t = ['-'] then some .sub
  else if t = ['*'] then some .mul
  else if t = ['/'] then some .div
  else none

/-- ASCII letter test (the tokens this grammar produces are ASCII). -/
def isAlphaChar (c : Char) : Bool :=
  ('a' ≤ c && c ≤ 'z') || ('A' ≤ c && c ≤ 'Z')

/-- Python `str.isalpha`: nonempty and all alphabetic. -/
def isalpha (t : List Char) : Bool := !t.isEmpty && t.all isAlphaChar

/-- ASCII digit test. -/
def isDigit (c : Char) : Bool := '0' ≤ c && c ≤ '9'

/-- The natural number denoted by a digit string. -/
def natOfDigits (cs : List Char) : Nat :=
  cs.foldl (fun a c => a * 10 + (c.toNat - 48)) 0

/-- Python's `float()` builtin on a token: an optional leading minus, then
digits with at most one decimal point and at least one digit; anything else
raises `ValueError` (`none`).  The result is a `float`-kind value.  (The
builtin also accepts forms this grammar never produces — exponents,
`inf`/`nan`, underscores, surrounding whitespace — which are out of
scope.) -/
def pyFloat (t : List Char) : Option PyNum :=
  let p := match t with
    | '-' :: rest => (true, rest)
    | _ => (false, t)
  let ip := p.2.takeWhile isDigit
  let rest := p.2.dropWhile isDigit
  let frac? : Option (List Char) :=
    match rest with
    | [] => some []
    | '.' :: fr => if fr.all isDigit then some fr else none
    | _ => none
  match frac? with
  | none => none
  | some frac =>
    if ip.isEmpty && frac.isEmpty then none
    else
      let n : Int := (natOfDigits ip * 10 ^ frac.length + natOfDigits frac : Nat)
      some ⟨if p.1 then -n else n, ((10 : Nat) ^ frac.length : Nat), true⟩

/-- `recursive_parse(index)`, with explicit fuel bounding the recursion
depth (the Python recursion needs none: each nested call starts one token
further right, so its depth is bounded by the token count, and `parse`
supplies that much fuel).  On `(` it parses the left operand, reads the
operator token, parses the right operand, then checks the closing `)` —
raising the bracket `ValueError` when the token there is another one — and
only then looks the operator up in the `operators` dict.  An alphabetic
token is a `Var` leaf; any other token is handed to `float()` for a `Num`
leaf.  The source compares `tokens[index] is not end` by object identity;
CPython interns the one-character strings involved, so this is string
comparison. -/
def recursiveParse (fuel : Nat) (tokens : List (List Char)) (index : Nat) :
    Except ParseErr (Expr × Nat) :=
  match fuel with
  | 0 => .error .outOfFuel
  | fuel + 1 =>
    match tokens.get? index with
    | none => .error .indexError
    | some t =>
      if t = ['('] then
        match recursiveParse fuel tokens (index + 1) with
        | .error e => .error e
        | .ok (leftExp, i1) =>
          match tokens.get? i1 with
          | none => .error .indexError
          | some opTok =>
            match recursiveParse fuel tokens (i1 + 1) with
            | .error e => .error e
            | .ok (rightExp, i2) =>
              match tokens.get? i2 with
              | none => .error .indexError
              | some t2 =>
                if t2 = [')'] then
                  match opOf opTok with
                  | some op => .ok (.binOp op leftExp rightExp, i2 + 1)
                  | none => .error .keyError
                else .error .valueErrorBracket
      else if isalpha t then .ok (.var (String.mk t), index + 1)
      else
        match pyFloat t with
        | some v => .ok (.num v, index + 1)
        | none => .error .valueErrorFloat

/-- `parse`: run `recursive_parse` from index 0 and discard the final
cursor.  One unit of fuel is consumed per nesting level and every nested
call starts at least one token further right, so `length + 1` units never
run out. -/
def parse (tokens : List (List Char)) : Except ParseErr Expr :=
  (recursiveParse (tokens.length + 1) tokens 0).map Prod.fst

/-- `make_expression`: tokenize then parse. -/
def make_expression (s : List Char) : Except ParseErr Expr :=
  parse (tokenize s)

/-! ### Spec-side description of simplification

`simplifySpec` below follows the specification's words rather than the
source's control flow, so that the refinement between the two can be stated
and proved. -/

/-- Whether an expression is a `Num` leaf (a foldable operand, in the
spec's words). -/
def isNumE : Expr → Bool
  | .num _ => true
  | _ => false

/-- Whether an expression is a `Num` leaf of value zero. -/
def isZeroE : Expr → Bool
  | .num a => pyNumEq a zeroN
  | _ => false

/-- Whether an expression is a `Num` leaf of value one. -/
def isOneE : Expr → Bool
  | .num a => pyNumEq a oneN
  | _ => false

/-- The spec's description of one simplification step over already-simplified
children: if both are Numbers, fold them by applying the operator; otherwise
apply the operator-specific identities (Add: `0 + x → x`, `x + 0 → x`; Sub:
`x - 0 → x` only; Mul: `0 * x → 0`, `x * 0 → 0`, `1 * x → x`, `x * 1 → x`;
Div: `0 / x → 0`, `x / 1 → x`); and if no rule applies, return a freshly
constructed node of the same operator over the simplified children. -/
def simplifySpecStep (op : Op) (ls rs : Expr) : Option Expr :=
  match ls, rs with
  | .num a, .num b => (pyEvalNum op a b).map .num
  | _, _ =>
    match op with
    | .add =>
      if isZeroE ls then some rs
      else if isZeroE rs then some ls
      else some (.binOp .add ls rs)
    | .sub =>
      if isZeroE rs then some ls
      else some (.binOp .sub ls rs)
    | .mul =>
      if isZeroE ls || isZeroE rs then some (.num zeroN)
      else if isOneE ls then some rs
      else if isOneE rs then some ls
      else some (.binOp .mul ls rs)
    | .div =>
      if isZeroE ls then some (.num zeroN)
      else if isOneE rs then some ls
      else some (.binOp .div ls rs)

/-- The spec's description of `simplify`: a bottom-up rewrite that first
simplifies both children and then applies `simplifySpecStep` at the node. -/
def simplifySpec : Expr → Option Expr
  | .var name => some (.var name)
  | .num n => some (.num n)
  | .binOp op l r => do
      let ls ← simplifySpec l
      let rs ← simplifySpec r
      simplifySpecStep op ls rs

/-! ### Helper lemmas -/

theorem simplifyStep_eq_specStep (op : Op) (ls rs : Expr) :
    simplifyStep op ls rs = simplifySpecStep op ls rs := by
  cases op <;> cases ls <;> cases rs <;>
    simp [simplifyStep, simplifyAdd, simplifySub, simplifyMul, simplifyDiv,
      simplifySpecStep, isZeroE, isOneE]

theorem simplifyStep_shape (op : Op) (ls rs t : Expr)
    (h : simplifyStep op ls rs = some t) :
    (∃ v, t = .num v) ∨ t = ls ∨ t = rs ∨ t = .binOp op ls rs := by
  cases op <;> cases ls <;> cases rs <;>
    simp only [simplifyStep, simplifyAdd, simplifySub, simplifyMul, simplifyDiv,
      pyEvalNum, Option.map_some', Option.map_none'] at h <;>
    (try split_ifs at h) <;>
    simp only [Option.map_some', Option.map_none', Option.some.injEq,
      reduceCtorEq] at h <;>
    (subst h; simp)

theorem simplifyStep_fix (op : Op) (ls rs t : Expr)
    (hls : ls.simplify = some ls) (hrs : rs.simplify = some rs)
    (h : simplifyStep op ls rs = some t) : t.simplify = some t := by
  rcases simplifyStep_shape op ls rs t h with ⟨v, rfl⟩ | rfl | rfl | rfl
  · rfl
  · exact hls
  · exact hrs
  · simpa [Expr.simplify, hls, hrs] using h

theorem simplify_fix (e : Expr) : ∀ t, e.simplify = some t → t.simplify = some t := by
  induction e with
  | var name => intro t h; simp [Expr.simplify] at h; subst h; rfl
  | num n => intro t h; simp [Expr.simplify] at h; subst h; rfl
  | binOp op l r ihl ihr =>
    intro t h
    simp only [Expr.simplify, Option.bind_eq_bind, Option.bind_eq_some] at h
    obtain ⟨ls, hls, rs, hrs, hstep⟩ := h
    exact simplifyStep_fix op ls rs t (ihl ls hls) (ihr rs hrs) hstep

theorem flushCurr_curr (st : TokState) : (flushCurr st).curr = [] := by
  unfold flushCurr
  split
  · simp_all [List.isEmpty_iff]
  · rfl

theorem flushCurr_flatten (st : TokState) :
    (flushCurr st).out.flatten ++ (flushCurr st).curr = st.out.flatten ++ st.curr := by
  unfold flushCurr
  split
  · simp_all [List.isEmpty_iff]
  · simp

theorem tokStep_flatten (st : TokState) (c : Char) :
    (tokStep st c).out.flatten ++ (tokStep st c).curr =
      st.out.flatten ++ st.curr ++ (if c = ' ' then [] else [c]) := by
  unfold tokStep
  split_ifs with h1 h2 h3 h4 <;>
    simp [flushCurr_curr, List.append_assoc]
  · have := flushCurr_flatten st
    simp [flushCurr_curr] at this
    simp [this]
  · have := flushCurr_flatten st
    simp [flushCurr_curr] at this
    simp [this]

theorem foldl_tokStep_flatten (s : List Char) (st : TokState) :
    (s.foldl tokStep st).out.flatten ++ (s.foldl tokStep st).curr =
      st.out.flatten ++ st.curr ++ s.filter (fun c => c != ' ') := by
  induction s generalizing st with
  | nil => simp
  | cons c cs ih =>
    simp only [List.foldl_cons, List.filter_cons]
    rw [ih, tokStep_flatten]
    by_cases h : c = ' ' <;> simp [h, List.append_assoc]

theorem tokenize_flatten (s : List Char) :
    (tokenize s).flatten = s.filter (fun c => c != ' ') := by
  have h := foldl_tokStep_flatten s ⟨[], [], none⟩
  simp only [List.flatten_nil, List.nil_append] at h
  show (let st := List.foldl tokStep ⟨[], [], none⟩ s;
    if st.curr.isEmpty then st.out else st.out ++ [st.curr]).flatten =
    List.filter (fun c => c != ' ') s
  set st := List.foldl tokStep ⟨[], [], none⟩ s with hst
  by_cases hc : st.curr.isEmpty
  · have : st.curr = [] := by simpa [List.isEmpty_iff] using hc
    simpa [hc, this] using h
  · simpa [hc] using h

theorem pyAnd_some (a b : Bool) : pyAnd (some a) (some b) = some (a && b) := by
  cases a <;> rfl

theorem pyOr_some (a b : Bool) : pyOr (some a) (some b) = some (a || b) := by
  cases a <;> rfl

/-! ### The claims -/

/-- C1: `simplify` is a bottom-up rewrite — it first simplifies both
children; if both simplified children are `Num` leaves it folds them by
applying the node's operator to their values; otherwise it applies the
operator-specific identities (Add: `0 + x → x`, `x + 0 → x`; Sub:
`x - 0 → x` only; Mul: `0 * x → 0`, `x * 0 → 0`, `1 * x → x`, `x * 1 → x`;
Div: `0 / x → 0`, `x / 1 → x`), which fire only when the other operand is
not also foldable; and if no rule applies it returns a freshly constructed
node of the same operator over the simplified children.  Stated as a
refinement: the source's `simplify` coincides with `simplifySpec`, the
rewrite written from the claim's words. -/
theorem simplify_is_bottom_up_spec_rewrite (e : Expr) :
    e.simplify = simplifySpec e := by
  induction e with
  | var name => rfl
  | num n => rfl
  | binOp op l r ihl ihr =>
    simp only [Expr.simplify, simplifySpec, ihl, ihr, simplifyStep_eq_specStep]

/-- C2: `differentiate` follows the standard symbolic rules — a `Var` gives
`Num(1)` when its name matches and `Num(0)` otherwise; a `Num` gives
`Num(0)`; `Add`/`Sub` give the sum/difference of the children's
derivatives; `Mul` gives `left * d(right) + right * d(left)`; `Div` gives
`(right * d(left) - left * d(right)) / (right * right)` — and never
simplifies. -/
theorem deriv_standard_rules (name v : String) (n : PyNum) (l r : Expr) :
    Expr.deriv (.var name) v = (if name = v then .num oneN else .num zeroN) ∧
    Expr.deriv (.num n) v = .num zeroN ∧
    Expr.deriv (.binOp .add l r) v = .binOp .add (l.deriv v) (r.deriv v) ∧
    Expr.deriv (.binOp .sub l r) v = .binOp .sub (l.deriv v) (r.deriv v) ∧
    Expr.deriv (.binOp .mul l r) v =
      .binOp .add (.binOp .mul l (r.deriv v)) (.binOp .mul r (l.deriv v)) ∧
    Expr.deriv (.binOp .div l r) v =
      .binOp .div
        (.binOp .sub (.binOp .mul r (l.deriv v)) (.binOp .mul l (r.deriv v)))
        (.binOp .mul r r) :=
  ⟨rfl, rfl, rfl, rfl, rfl, rfl⟩

/-- C3: `toString` renders a `BinOp` infix with the operator symbol
surrounded by single spaces; the precedences are Number/Variable = 10,
Add/Sub = 1, Mul/Div = 2; and a child's rendering is parenthesized iff its
precedence is strictly lower than the parent's, or the parent is `Sub` or
`Div`, the child is the right child, and their precedences are equal. -/
theorem str_infix_precedence_parenthesization (op : Op) (l r : Expr)
    (name : String) (v : PyNum) :
    Expr.precedence (.var name) = 10 ∧
    Expr.precedence (.num v) = 10 ∧
    Expr.precedence (.binOp .add l r) = 1 ∧
    Expr.precedence (.binOp .sub l r) = 1 ∧
    Expr.precedence (.binOp .mul l r) = 2 ∧
    Expr.precedence (.binOp .div l r) = 2 ∧
    Expr.str (.binOp op l r) =
      (if l.precedence < Expr.precedence (.binOp op l r)
        then "(" ++ l.str ++ ")" else l.str) ++
      " " ++ opSym op ++ " " ++
      (if r.precedence < Expr.precedence (.binOp op l r) ∨
          ((op = .sub ∨ op = .div) ∧ r.precedence = Expr.precedence (.binOp op l r))
        then "(" ++ r.str ++ ")" else r.str) := by
  refine ⟨rfl, rfl, rfl, rfl, rfl, rfl, ?_⟩
  show (if l.precedence < Expr.precedence (.binOp op l r)
      then "(" ++ l.str ++ ")" else l.str) ++
    (" " ++ opSym op ++ " ") ++
    (if r.precedence < Expr.precedence (.binOp op l r) ∨
        ((op = .sub ∨ op = .div) ∧ r.precedence = Expr.precedence (.binOp op l r))
      then "(" ++ r.str ++ ")" else r.str) = _
  simp only [String.append_assoc]

/-- C4: simplification is idempotent — whenever `simplify` succeeds on `e`
with result `t`, simplifying `t` succeeds and prints (via `toString`)
identically to `t`. -/
theorem simplify_idempotent_print (e t : Expr) (h : e.simplify = some t) :
    (t.simplify).map Expr.str = some t.str := by
  rw [simplify_fix e t h]
  rfl

/-- Witness for C4 at the concrete input `x + 0`, which simplifies to `x`. -/
theorem simplify_idempotent_print_witness :
    Expr.simplify (.binOp .add (.var "x") (.num zeroN)) = some (.var "x") ∧
    (Expr.simplify (.var "x")).map Expr.str = some (Expr.str (.var "x")) :=
  ⟨by decide,
    simplify_idempotent_print (.binOp .add (.var "x") (.num zeroN)) (.var "x")
      (by decide)⟩

/-- C5: structural equality between `BinOp` trees with the same tag is
commutative for `Add`/`Mul` (children may match in order or swapped) and
order-sensitive for `Sub`/`Div`; trees with different tags are never
equal.  The child comparisons are assumed to be defined (not raising), as
recorded by the four hypotheses. -/
theorem binOp_eq_commutativity (l1 r1 l2 r2 : Expr) (a b c d : Bool)
    (op1 op2 : Op) (l1' r1' l2' r2' : Expr)
    (h1 : pyEq l1 l2 = some a) (h2 : pyEq r1 r2 = some b)
    (h3 : pyEq l1 r2 = some c) (h4 : pyEq r1 l2 = some d)
    (hop : op1 ≠ op2) :
    pyEq (.binOp .add l1 r1) (.binOp .add l2 r2) = some ((a && b) || (c && d)) ∧
    pyEq (.binOp .mul l1 r1) (.binOp .mul l2 r2) = some ((a && b) || (c && d)) ∧
    pyEq (.binOp .sub l1 r1) (.binOp .sub l2 r2) = some (a && b) ∧
    pyEq (.binOp .div l1 r1) (.binOp .div l2 r2) = some (a && b) ∧
    pyEq (.binOp op1 l1' r1') (.binOp op2 l2' r2') = some false := by
  refine ⟨?_, ?_, ?_, ?_, ?_⟩
  · simp [pyEq, h1, h2, h3, h4, pyAnd_some, pyOr_some]
  · simp [pyEq, h1, h2, h3, h4, pyAnd_some, pyOr_some]
  · simp [pyEq, h1, h2, pyAnd_some]
  · simp [pyEq, h1, h2, pyAnd_some]
  · simp [pyEq, hop]

/-- Witness for C5 at concrete trees: `x + y` equals `y + x` (swapped
match), while `Add` and `Sub` nodes are never equal. -/
theorem binOp_eq_commutativity_witness :
    pyEq (.var "x") (.var "y") = some false ∧
    pyEq (.var "y") (.var "x") = some false ∧
    pyEq (.var "x") (.var "x") = some true ∧
    pyEq (.var "y") (.var "y") = some true ∧
    Op.add ≠ Op.sub ∧
    (pyEq (.binOp .add (.var "x") (.var "y")) (.binOp .add (.var "y") (.var "x")) =
        some ((false && false) || (true && true)) ∧
      pyEq (.binOp .mul (.var "x") (.var "y")) (.binOp .mul (.var "y") (.var "x")) =
        some ((false && false) || (true && true)) ∧
      pyEq (.binOp .sub (.var "x") (.var "y")) (.binOp .sub (.var "y") (.var "x")) =
        some (false && false) ∧
      pyEq (.binOp .div (.var "x") (.var "y")) (.binOp .div (.var "y") (.var "x")) =
        some (false && false) ∧
      pyEq (.binOp .add (.var "z") (.var "z")) (.binOp .sub (.var "z") (.var "z")) =
        some false) :=
  ⟨by decide, by decide, by decide, by decide, by decide,
    binOp_eq_commutativity (.var "x") (.var "y") (.var "y") (.var "x")
      false false true true .add .sub (.var "z") (.var "z") (.var "z") (.var "z")
      (by decide) (by decide) (by decide) (by decide) (by decide)⟩

/-- C6 counterexample: parsing `"(3 * (x + 2))"`, differentiating with
respect to `"x"`, simplifying, and stringifying does not yield `"3"` — the
parser builds float literals, so the folded constant prints as `"3.0"`. -/
theorem parse_deriv_simplify_str_not_three :
    (match make_expression "(3 * (x + 2))".toList with
      | .ok e => ((e.deriv "x").simplify).map Expr.str
      | .error _ => none) ≠ some "3" := by
  decide

/-- C6 (amended): parsing `"(3 * (x + 2))"`, differentiating with respect
to `"x"`, simplifying, and stringifying yields exactly `"3.0"`. -/
theorem parse_deriv_simplify_str_three :
    (match make_expression "(3 * (x + 2))".toList with
      | .ok e => ((e.deriv "x").simplify).map Expr.str
      | .error _ => none) = some "3.0" := by
  decide

/-- C7: `parse` fails with the bracket `ValueError` whenever the token at
the position where `)` must appear after the right operand is present but
is not `)`. -/
theorem parse_missing_rparen_valueError (tokens : List (List Char))
    (l r : Expr) (i1 i2 : Nat) (opTok t2 : List Char)
    (h0 : tokens.get? 0 = some ['('])
    (hl : recursiveParse tokens.length tokens 1 = .ok (l, i1))
    (hop : tokens.get? i1 = some opTok)
    (hr : recursiveParse tokens.length tokens (i1 + 1) = .ok (r, i2))
    (ht : tokens.get? i2 = some t2)
    (hne : t2 ≠ [')']) :
    parse tokens = .error .valueErrorBracket := by
  unfold parse
  show (match tokens.length + 1 with
    | 0 => Except.error ParseErr.outOfFuel
    | fuel + 1 => _).map Prod.fst = _
  simp only [recursiveParse, h0, hl, hop, hr, ht, hne, if_true, if_false,
    reduceIte, Except.map]

/-- Witness for C7 on the tokens `( x + y z`. -/
theorem parse_missing_rparen_valueError_witness :
    ([['('], ['x'], ['+'], ['y'], ['z']] : List (List Char)).get? 0 = some ['('] ∧
    recursiveParse 5 [['('], ['x'], ['+'], ['y'], ['z']] 1 = .ok (.var "x", 2) ∧
    ([['('], ['x'], ['+'], ['y'], ['z']] : List (List Char)).get? 2 = some ['+'] ∧
    recursiveParse 5 [['('], ['x'], ['+'], ['y'], ['z']] 3 = .ok (.var "y", 4) ∧
    ([['('], ['x'], ['+'], ['y'], ['z']] : List (List Char)).get? 4 = some ['z'] ∧
    (['z'] : List Char) ≠ [')'] ∧
    parse [['('], ['x'], ['+'], ['y'], ['z']] = .error .valueErrorBracket :=
  ⟨by decide, rfl, by decide, rfl, by decide, by decide,
    parse_missing_rparen_valueError [['('], ['x'], ['+'], ['y'], ['z']]
      (.var "x") (.var "y") 2 4 ['+'] ['z']
      (by decide) rfl (by decide) rfl (by decide) (by decide)⟩

/-- C8: `tokenize` treats `-` as the start of a negative-number literal
(accumulating it into the numeric-literal buffer) exactly when the previous
non-space character is `None`, `(`, or one of `+ - * /`; in every other
position `-` is flushed-and-emitted as its own one-character token; and the
emitted tokens, concatenated in order, are exactly the input with spaces
dropped (left-to-right order, nothing else dropped). -/
theorem tokenize_minus_rule_and_order (st1 st2 : TokState) (s : List Char)
    (hf : negPrev st1.prev = true) (hb : negPrev st2.prev = false) :
    tokStep st1 '-' = { st1 with curr := st1.curr ++ ['-'], prev := some '-' } ∧
    tokStep st2 '-' =
      { flushCurr st2 with out := (flushCurr st2).out ++ [['-']], prev := some '-' } ∧
    (tokenize s).flatten = s.filter (fun c => c != ' ') := by
  refine ⟨?_, ?_, tokenize_flatten s⟩
  · simp [tokStep, numChars, specialOps, hf]
  · simp [tokStep, numChars, specialOps, hb]

/-- Witness for C8: a `-` after `(` folds into the literal buffer, a `-`
after a digit is emitted alone, and a concrete tokenization preserves the
non-space characters in order. -/
theorem tokenize_minus_rule_and_order_witness :
    negPrev (some '(') = true ∧
    negPrev (some '1') = false ∧
    (tokStep ⟨[['(']], [], some '('⟩ '-' = ⟨[['(']], ['-'], some '-'⟩ ∧
      tokStep ⟨[['(']], ['1'], some '1'⟩ '-' =
        ⟨[['('], ['1'], ['-']], [], some '-'⟩ ∧
      (tokenize "(1 - 2)".toList).flatten = "(1-2)".toList) := by
  refine ⟨by decide, by decide, ?_⟩
  have h := tokenize_minus_rule_and_order ⟨[['(']], [], some '('⟩
    ⟨[['(']], ['1'], some '1'⟩ "(1 - 2)".toList (by decide) (by decide)
  refine ⟨?_, ?_, ?_⟩
  · have := h.1
    simpa [flushCurr] using this
  · have := h.2.1
    simpa [flushCurr] using this
  · have := h.2.2
    rw [this]
    decide

/-- C9: `simplify` is not total — on a `Div` node whose two simplified
children are `Num` leaves with the right value zero, the constant-folding
step performs the division and raises `ZeroDivisionError` (modelled as
`none`) instead of returning a tree. -/
theorem simplify_div_by_zero_raises (a b : PyNum) (hb : b.num = 0) :
    Expr.simplify (.binOp .div (.num a) (.num b)) = none := by
  simp [Expr.simplify, simplifyStep, simplifyDiv, pyEvalNum, hb]

/-- Witness for C9 at `Div(Num(1), Num(0))`. -/
theorem simplify_div_by_zero_raises_witness :
    (⟨0, 1, false⟩ : PyNum).num = 0 ∧
    Expr.simplify (.binOp .div (.num ⟨1, 1, false⟩) (.num ⟨0, 1, false⟩)) = none :=
  ⟨rfl, simplify_div_by_zero_raises ⟨1, 1, false⟩ ⟨0, 1, false⟩ rfl⟩

/-- C10: equality between different variants raises — `Var.__eq__` reads
`other.name` and `Num.__eq__` reads `other.n`, so comparing a `Var` to a
`Num`, or a `Num` to a `BinOp`, raises `AttributeError` (modelled as
`none`) rather than returning false. -/
theorem eq_cross_variant_raises (name : String) (v w : PyNum) (op : Op)
    (l r : Expr) :
    pyEq (.var name) (.num v) = none ∧
    pyEq (.num w) (.binOp op l r) = none :=
  ⟨rfl, rfl⟩

end Symboa
